import Mathlib

/-
  Verification of the corkandcandles Bookeo-to-SQL/Excel sync engine.

  Shallow embedding of the Python sources:
    src/bookeo_client.py                     (window chunking, page fetch error mapping)
    src/function_app/shared/bookeo_client.py (window chunking, dedup by bookingNumber)
    src/webhook/booking_db.py                (record mapping, update-then-insert upsert)
    src/scripts/load_bookeo_bookings.py      (record mapping, batch upsert)
    src/shared/sql_client.py                 (lenient timestamp mapping, MERGE upsert)
    src/excel_export.py                      (row flattening, dict dedup)
    src/shared/webhook_auth.py               (webhook HMAC verification)
    src/webhook/function_app.py              (webhook HMAC verification, local copy)
    src/function_app/function_app.py         (webhook endpoint gating)

  Conventions: Python dicts with a known shape become structures whose fields are
  Option-typed (None / absent key = none); Python truthiness of a value is made
  explicit (truthyS, truthyB, moneyTruthy); byte strings are List Nat; wall-clock
  reads (time.time, datetime.utcnow) and the HMAC-SHA256 primitive are passed in
  as parameters; an uncaught Python exception is an Except.error; SQL tables are
  association lists keyed by the natural key column, with the store-managed
  created_at / updated_at / SyncedAt audit timestamps outside the model.
-/

/-! ## Window planner: 31-day chunk loop
    BookeoClient.fetch_all_bookings (src/bookeo_client.py lines 114-142) and
    fetch_bookings_by_date_range (src/function_app/shared/bookeo_client.py lines
    91-123) both run: while current_start < end, chunk_end = min(current_start +
    timedelta(days=31), end), emit the window, current_start = chunk_end.
    Naive UTC datetimes are modelled as integer epoch seconds; timedelta(days=d)
    is d * 86400 seconds. -/

/-- MAX_DAYS_PER_CALL in src/bookeo_client.py. -/
def MAX_DAYS_PER_CALL : Nat := 31

/-- timedelta(days=d) on naive datetimes, in seconds. -/
def daysToSeconds (d : Nat) : Int := (d : Int) * 86400

/-- The chunking loop shared by fetch_all_bookings and
    fetch_bookings_by_date_range: the list of half-open windows
    (current_start, chunk_end) it emits for the range s to e with chunk step
    st seconds. -/
def planWindows (s e st : Int) : List (Int × Int) :=
  if h : s < e ∧ 0 < st then
    (s, min (s + st) e) :: planWindows (min (s + st) e) e st
  else []
termination_by (e - s).toNat
decreasing_by
  rw [Int.min_def]
  split <;> omega

/-- Epoch seconds of 2026-01-01T00:00:00Z. -/
def date20260101 : Int := 1767225600

/-- Epoch seconds of 2026-02-01T00:00:00Z. -/
def date20260201 : Int := 1769904000

/-- Epoch seconds of 2026-02-15T00:00:00Z. -/
def date20260215 : Int := 1771113600

/-! ## Upstream booking records
    A Bookeo booking is a semi-structured JSON document. The fields read
    anywhere in the repository are modelled; absent or null keys are none.
    Numeric JSON amounts are modelled by their decimal string rendering, so
    Python str() on them is the identity. -/

/-- A money sub-object (price.totalGross / totalNet / totalPaid). -/
structure Money where
  amount : Option String
  currency : Option String
deriving DecidableEq, Repr

/-- The nested price object of a booking. -/
structure PriceObj where
  totalGross : Option Money
  totalNet : Option Money
  totalPaid : Option Money
deriving DecidableEq, Repr

/-- One entry of participants.numbers. -/
structure PartNumber where
  number : Option Int
deriving DecidableEq, Repr

/-- The nested participants object. -/
structure Participants where
  numbers : List PartNumber
deriving DecidableEq, Repr

/-- A phone entry of a customer. -/
structure Phone where
  number : Option String
deriving DecidableEq, Repr

/-- The expanded customer sub-object. -/
structure Customer where
  firstName : Option String
  middleName : Option String
  lastName : Option String
  emailAddress : Option String
  phoneNumbers : List Phone
deriving DecidableEq, Repr

/-- One entry of the resources list. -/
structure ResourceObj where
  name : Option String
  id : Option String
deriving DecidableEq, Repr

/-- One entry of the options list. -/
structure OptionObj where
  name : Option String
  id : Option String
  value : Option String
deriving DecidableEq, Repr

/-- An upstream booking record, with every field the repository reads. -/
structure Booking where
  bookingNumber : Option String
  eventId : Option String
  startTime : Option String
  endTime : Option String
  customerId : Option String
  title : Option String
  productName : Option String
  productId : Option String
  canceled : Option Bool
  accepted : Option Bool
  noShow : Option Bool
  privateEvent : Option Bool
  sourceIp : Option String
  creationTime : Option String
  lastChangeTime : Option String
  lastChangeAgent : Option String
  cancelationTime : Option String
  creationAgent : Option String
  externalRef : Option String
  bookingSource : Option String
  participants : Option Participants
  price : Option PriceObj
  customer : Option Customer
  resources : List ResourceObj
  options : List OptionObj
deriving DecidableEq, Repr

/-- The all-absent record, the image of the empty JSON dict. -/
def emptyBooking : Booking :=
  ⟨none, none, none, none, none, none, none, none, none, none, none, none,
   none, none, none, none, none, none, none, none, none, none, none, [], []⟩

/-- Python truthiness of an optional string: None and the empty string are
    falsy. -/
def truthyS : Option String → Bool
  | none => false
  | some s => s ≠ ""

/-- Python truthiness of an optional boolean: None and False are falsy. -/
def truthyB : Option Bool → Bool
  | none => false
  | some b => b

/-! ## Record mapping for the SQL loaders
    parse_booking_for_db in src/webhook/booking_db.py lines 27-62 and its
    identical copy in src/scripts/load_bookeo_bookings.py lines 107-144. -/

/-- The flat row produced by parse_booking_for_db. The raw_json column retains
    the record verbatim; json.dumps is modelled by keeping the record itself
    (the dict is falsy exactly when it is empty). -/
structure DbRow where
  booking_number : Option String
  event_id : Option String
  start_time : Option String
  end_time : Option String
  customer_id : Option String
  title : Option String
  product_name : Option String
  product_id : Option String
  canceled : Nat
  accepted : Nat
  no_show : Nat
  private_event : Nat
  source_ip : Option String
  creation_time : Option String
  last_change_time : Option String
  last_change_agent : Option String
  total_participants : Int
  total_gross : Option String
  total_net : Option String
  total_paid : Option String
  currency : Option String
  raw_json : Option Booking
deriving DecidableEq, Repr

/-- The empty price object, the default of booking.get with an empty dict. -/
def emptyPrice : PriceObj := ⟨none, none, none⟩

/-- The empty money object. -/
def emptyMoney : Money := ⟨none, none⟩

/-- parse_booking_for_db from src/webhook/booking_db.py (same text in
    src/scripts/load_bookeo_bookings.py). -/
def parse_booking_for_db (booking : Booking) : DbRow :=
  let numbers := (booking.participants.getD ⟨[]⟩).numbers
  let total_participants := (numbers.map (fun n => n.number.getD 0)).sum
  let price := booking.price.getD emptyPrice
  let total_gross := (price.totalGross.getD emptyMoney).amount
  let total_net := (price.totalNet.getD emptyMoney).amount
  let total_paid := (price.totalPaid.getD emptyMoney).amount
  let currency := (price.totalGross.getD emptyMoney).currency
  { booking_number := booking.bookingNumber
    event_id := booking.eventId
    start_time := booking.startTime
    end_time := booking.endTime
    customer_id := booking.customerId
    title := booking.title
    product_name := booking.productName
    product_id := booking.productId
    canceled := if truthyB booking.canceled then 1 else 0
    accepted := if truthyB (some (booking.accepted.getD true)) then 1 else 0
    no_show := if truthyB booking.noShow then 1 else 0
    private_event := if truthyB booking.privateEvent then 1 else 0
    source_ip := booking.sourceIp
    creation_time := booking.creationTime
    last_change_time := booking.lastChangeTime
    last_change_agent := booking.lastChangeAgent
    total_participants := total_participants
    total_gross := total_gross
    total_net := total_net
    total_paid := total_paid
    currency := currency
    raw_json := if booking = emptyBooking then none else some booking }

/-! ## Association-list model of the keyed destination tables
    A SQL table whose identity column is the natural key is a list of rows in
    insertion order. UPDATE ... WHERE key = k rewrites every row whose key
    matches; INSERT appends; both the UPDATE-then-INSERT upserts and the MERGE
    upsert reduce to: rewrite if the key is present, else append. -/

/-- UPDATE: rewrite every row whose key equals the key of x. -/
def updateByKey {β κ : Type} [BEq κ] (keyf : β → κ) (x : β) (t : List β) : List β :=
  t.map fun r => if keyf r == keyf x then x else r

/-- Does some row of t carry key k (the rowcount-positive test)? -/
def hasKey {β κ : Type} [BEq κ] (keyf : β → κ) (t : List β) (k : κ) : Bool :=
  t.any fun r => keyf r == k

/-- Attempt an update by key; if no row was affected, insert. -/
def upsertByKey {β κ : Type} [BEq κ] (keyf : β → κ) (t : List β) (x : β) : List β :=
  if hasKey keyf t (keyf x) then updateByKey keyf x t else t ++ [x]

/-- The row stored under key k (SELECT by the unique key column). -/
def findByKey {β κ : Type} [BEq κ] (keyf : β → κ) (t : List β) (k : κ) : Option β :=
  t.find? fun r => keyf r == k

/-- upsert_booking from src/webhook/booking_db.py lines 107-151: skip and
    report False when booking_number is falsy, else UPDATE by booking_number
    and INSERT when zero rows were affected, reporting True. -/
def BookingDb.upsert_booking (t : List DbRow) (row : DbRow) : List DbRow × Bool :=
  if truthyS row.booking_number = false then (t, false)
  else (upsertByKey DbRow.booking_number t row, true)

/-- The effect on the table of running BookingDb.upsert_booking over a batch
    row by row. -/
def BookingDb.applyBatch (t : List DbRow) (rows : List DbRow) : List DbRow :=
  rows.foldl (fun t r => (BookingDb.upsert_booking t r).1) t

/-- upsert_to_azure_sql from src/scripts/load_bookeo_bookings.py lines 147-194:
    for each row UPDATE by booking_number then INSERT when zero rows were
    affected, counting every processed row. -/
def LoadScript.upsert_to_azure_sql (t : List DbRow) (rows : List DbRow) : List DbRow × Nat :=
  (rows.foldl (upsertByKey DbRow.booking_number) t, rows.length)

/-! ## Lenient timestamp mapping and MERGE upsert (src/shared/sql_client.py) -/

/-- val.replace with the one-character needle Z and the replacement +00:00. -/
def replaceZ (s : String) : String :=
  ⟨s.toList.foldr (fun c acc => if c = 'Z' then '+' :: '0' :: '0' :: ':' :: '0' :: '0' :: acc else c :: acc) []⟩

/-- The year-month-day hour-minute-second fields of a parsed datetime; a
    parsed offset is validated then discarded, because strftime on the naive
    field values never reads it. -/
structure Dtm where
  year : Nat
  month : Nat
  day : Nat
  hour : Nat
  minute : Nat
  second : Nat
deriving DecidableEq, Repr

/-- The numeric value of a decimal digit character, none otherwise. -/
def digitVal? (c : Char) : Option Nat :=
  if '0' ≤ c ∧ c ≤ '9' then some (c.toNat - 48) else none

/-- Read exactly two digits. -/
def read2 : List Char → Option (Nat × List Char)
  | c1 :: c2 :: rest => do
    let d1 ← digitVal? c1
    let d2 ← digitVal? c2
    pure (d1 * 10 + d2, rest)
  | _ => none

/-- Read exactly four digits. -/
def read4 : List Char → Option (Nat × List Char)
  | c1 :: c2 :: c3 :: c4 :: rest => do
    let d1 ← digitVal? c1
    let d2 ← digitVal? c2
    let d3 ← digitVal? c3
    let d4 ← digitVal? c4
    pure (d1 * 1000 + d2 * 100 + d3 * 10 + d4, rest)
  | _ => none

/-- Expect one specific character. -/
def expectChar (c : Char) : List Char → Option (List Char)
  | x :: rest => if x = c then some rest else none
  | [] => none

/-- Gregorian leap-year rule. -/
def isLeap (y : Nat) : Bool := (y % 4 = 0 ∧ y % 100 ≠ 0) ∨ y % 400 = 0

/-- Days in a month. -/
def daysInMonth (y m : Nat) : Nat :=
  if m = 2 then (if isLeap y then 29 else 28)
  else if m = 4 ∨ m = 6 ∨ m = 9 ∨ m = 11 then 30
  else 31

/-- Read an optional fractional-second part: a dot followed by one or more
    digits (the digits are discarded; strftime never prints them). -/
def readFraction : List Char → Option (List Char)
  | '.' :: rest =>
    let digits := rest.takeWhile (fun c => digitVal? c |>.isSome)
    if digits = [] then none else some (rest.drop digits.length)
  | rest => some rest

/-- Read and validate an optional trailing UTC offset of the form +HH:MM or
    -HH:MM (absolute value below 24 hours), discarding it. -/
def readOffset : List Char → Option (List Char)
  | [] => some []
  | sign :: rest =>
    if sign = '+' ∨ sign = '-' then do
      let (oh, rest1) ← read2 rest
      let rest2 ← expectChar ':' rest1
      let (om, rest3) ← read2 rest2
      if oh < 24 ∧ om < 60 ∧ rest3 = [] then pure [] else none
    else none

/-- Read HH:MM:SS and an optional fraction. -/
def readTime (cs : List Char) : Option ((Nat × Nat × Nat) × List Char) := do
  let (h, r1) ← read2 cs
  let r2 ← expectChar ':' r1
  let (mi, r3) ← read2 r2
  let r4 ← expectChar ':' r3
  let (se, r5) ← read2 r4
  let r6 ← readFraction r5
  if h < 24 ∧ mi < 60 ∧ se < 60 then pure ((h, mi, se), r6) else none

/-- datetime.fromisoformat restricted to the shapes this integration sends:
    a YYYY-MM-DD date, optionally followed by T and HH:MM:SS with optional
    fractional seconds, optionally followed by a +HH:MM or -HH:MM offset.
    Anything else is unparsable (none, the ValueError branch). -/
def fromisoformat? (s : String) : Option Dtm := do
  let cs := s.toList
  let (y, r1) ← read4 cs
  let r2 ← expectChar '-' r1
  let (mo, r3) ← read2 r2
  let r4 ← expectChar '-' r3
  let (d, r5) ← read2 r4
  if 1 ≤ mo ∧ mo ≤ 12 ∧ 1 ≤ d ∧ d ≤ daysInMonth y mo ∧ 1 ≤ y then
    match r5 with
    | [] => pure ⟨y, mo, d, 0, 0, 0⟩
    | 'T' :: r6 => do
      let ((h, mi, se), r7) ← readTime r6
      let r8 ← readOffset r7
      if r8 = [] then pure ⟨y, mo, d, h, mi, se⟩ else none
    | _ => none
  else none

/-- Left-pad a numeral to two digits. -/
def pad2 (n : Nat) : String := if n < 10 then "0" ++ toString n else toString n

/-- Left-pad a numeral to four digits. -/
def pad4 (n : Nat) : String :=
  if n < 10 then "000" ++ toString n
  else if n < 100 then "00" ++ toString n
  else if n < 1000 then "0" ++ toString n
  else toString n

/-- dt.strftime with the format %Y-%m-%d %H:%M:%S. -/
def strftimeSql (d : Dtm) : String :=
  pad4 d.year ++ "-" ++ pad2 d.month ++ "-" ++ pad2 d.day ++ " " ++
    pad2 d.hour ++ ":" ++ pad2 d.minute ++ ":" ++ pad2 d.second

/-- parse_datetime from src/shared/sql_client.py lines 58-67: falsy input maps
    to None; a value that parses after replacing Z with +00:00 is reformatted;
    an unparsable value is passed through as its first 19 characters. -/
def parse_datetime (val : Option String) : Option String :=
  match val with
  | none => none
  | some v =>
    if v = "" then none
    else
      match fromisoformat? (replaceZ v) with
      | some dt => some (strftimeSql dt)
      | none => some (v.take 19)

/-- The 13-column row bound by the MERGE statement in src/shared/sql_client.py.
    json.dumps(booking) always succeeds and is modelled by retaining the
    record. -/
structure SqlRow where
  BookingNumber : String
  EventId : String
  ProductId : String
  ProductName : String
  StartTime : Option String
  EndTime : Option String
  CustomerId : String
  Title : String
  Canceled : Bool
  CancelationTime : Option String
  CreationTime : Option String
  LastChangeTime : Option String
  RawJson : Booking
deriving DecidableEq, Repr

/-- str(booking.get(field) or "") truncated to n characters. -/
def strOrEmpty (v : Option String) (n : Nat) : String := (v.getD "").take n

/-- _booking_values from src/shared/sql_client.py lines 70-86. -/
def _booking_values (booking : Booking) : SqlRow :=
  { BookingNumber := strOrEmpty booking.bookingNumber 64
    EventId := strOrEmpty booking.eventId 128
    ProductId := strOrEmpty booking.productId 128
    ProductName := strOrEmpty booking.productName 256
    StartTime := parse_datetime booking.startTime
    EndTime := parse_datetime booking.endTime
    CustomerId := strOrEmpty booking.customerId 128
    Title := strOrEmpty booking.title 512
    Canceled := booking.canceled.getD false
    CancelationTime := parse_datetime booking.cancelationTime
    CreationTime := parse_datetime booking.creationTime
    LastChangeTime := parse_datetime booking.lastChangeTime
    RawJson := booking }

/-- upsert_booking from src/shared/sql_client.py lines 89-131: return early
    when bookingNumber is falsy, else MERGE on BookingNumber (update the
    matched row, insert when not matched). -/
def SqlClient.upsert_booking (t : List SqlRow) (booking : Booking) : List SqlRow :=
  if truthyS booking.bookingNumber = false then t
  else upsertByKey SqlRow.BookingNumber t (_booking_values booking)

/-- sync_bookings_to_sql from src/shared/sql_client.py lines 134-143: upsert
    each record in order and report the length of the input list. -/
def SqlClient.sync_bookings_to_sql (t : List SqlRow) (bookings : List Booking) : List SqlRow × Nat :=
  (bookings.foldl SqlClient.upsert_booking t, bookings.length)

/-! ## Excel export (src/excel_export.py) -/

/-- A Python or-chain over an optional string: the first truthy value, else
    the default. -/
def pyOr (v : Option String) (d : String) : String :=
  match v with
  | none => d
  | some s => if s = "" then d else s

/-- str.strip: drop unicode whitespace from both ends (written over the
    character list so that it evaluates inside the kernel). -/
def pyStrip (s : String) : String :=
  ⟨((s.toList.dropWhile Char.isWhitespace).reverse.dropWhile Char.isWhitespace).reverse⟩

/-- _safe from src/excel_export.py lines 46-54, at its optional-string call
    sites: str(val).strip() with empty and None mapped to the empty default. -/
def _safe (val : Option String) : String := pyStrip (val.getD "")

/-- _customer_name from src/excel_export.py lines 57-65. -/
def _customer_name (customer : Option Customer) : String :=
  match customer with
  | none => ""
  | some c =>
    let parts := ([c.firstName, c.middleName, c.lastName].filterMap id).filter (fun p => p ≠ "")
    pyStrip (String.intercalate " " parts)

/-- _customer_phone from src/excel_export.py lines 68-74. -/
def _customer_phone (customer : Option Customer) : String :=
  match customer with
  | none => ""
  | some c =>
    match c.phoneNumbers with
    | [] => ""
    | p :: _ => pyStrip (p.number.getD "")

/-- _resources_list from src/excel_export.py lines 77-82. -/
def _resources_list (booking : Booking) : String :=
  match booking.resources with
  | [] => ""
  | resources =>
    let names := resources.map (fun r => pyOr r.name (pyOr r.id ""))
    String.intercalate ", " (names.filter (fun n => n ≠ ""))

/-- _options_list from src/excel_export.py lines 85-95. -/
def _options_list (booking : Booking) : String :=
  match booking.options with
  | [] => ""
  | options =>
    let parts := options.filterMap (fun o =>
      let name := pyOr o.name (pyOr o.id "")
      let value := pyOr o.value ""
      if name ≠ "" ∨ value ≠ "" then
        some (if name ≠ "" then name ++ ": " ++ value else value)
      else none)
    String.intercalate "; " parts

/-- Python truthiness of a money dict: the empty dict is falsy. -/
def moneyTruthy (m : Money) : Bool := ¬(m.amount = none ∧ m.currency = none)

/-- The gross sub-object as read by _booking_to_row: booking.get price or
    empty, then price.get totalGross or empty. -/
def excelGross (booking : Booking) : Money :=
  ((booking.price.getD emptyPrice).totalGross).getD emptyMoney

/-- The net sub-object as read by _booking_to_row. -/
def excelNet (booking : Booking) : Money :=
  ((booking.price.getD emptyPrice).totalNet).getD emptyMoney

/-- The paid sub-object as read by _booking_to_row. -/
def excelPaid (booking : Booking) : Money :=
  ((booking.price.getD emptyPrice).totalPaid).getD emptyMoney

/-- The or-chain total_gross or total_net or total_paid of line 105: the
    first truthy (non-empty) money dict, else the last one. -/
def excelCurrencySource (booking : Booking) : Money :=
  if moneyTruthy (excelGross booking) then excelGross booking
  else if moneyTruthy (excelNet booking) then excelNet booking
  else excelPaid booking

/-- The flat row written to the sheet, one field per EXCEL_COLUMNS key. -/
structure ExcelRow where
  booking_number : String
  start_time : String
  end_time : String
  title : String
  product_name : String
  product_id : String
  customer_id : String
  customer_name : String
  customer_email : String
  customer_phone : String
  canceled : String
  cancelation_time : String
  creation_time : String
  creation_agent : String
  last_change_time : String
  last_change_agent : String
  total_gross : String
  total_net : String
  total_paid : String
  currency : String
  external_ref : String
  source : String
  no_show : String
  resources : String
  options : String
deriving DecidableEq, Repr

/-- _booking_to_row from src/excel_export.py lines 98-133. -/
def _booking_to_row (booking : Booking) : ExcelRow :=
  { booking_number := _safe booking.bookingNumber
    start_time := _safe booking.startTime
    end_time := _safe booking.endTime
    title := _safe booking.title
    product_name := _safe booking.productName
    product_id := _safe booking.productId
    customer_id := _safe booking.customerId
    customer_name := _customer_name booking.customer
    customer_email := _safe ((booking.customer.getD ⟨none, none, none, none, []⟩).emailAddress)
    customer_phone := _customer_phone booking.customer
    canceled := if truthyB booking.canceled then "Yes" else "No"
    cancelation_time := _safe booking.cancelationTime
    creation_time := _safe booking.creationTime
    creation_agent := _safe booking.creationAgent
    last_change_time := _safe booking.lastChangeTime
    last_change_agent := _safe booking.lastChangeAgent
    total_gross := _safe (excelGross booking).amount
    total_net := _safe (excelNet booking).amount
    total_paid := _safe (excelPaid booking).amount
    currency := _safe (some ((excelCurrencySource booking).currency.getD ""))
    external_ref := _safe booking.externalRef
    source := _safe booking.bookingSource
    no_show := if truthyB booking.noShow then "Yes" else "No"
    resources := _resources_list booking
    options := _options_list booking }

/-- The key_to_row dict built by write_bookings_to_excel lines 158-163: an
    insertion-ordered dict assignment keeps the position of the first
    occurrence of a key and the value of the last one. -/
def excelKeyRows (bookings : List Booking) : List (String × ExcelRow) :=
  bookings.foldl
    (fun d b =>
      let row := _booking_to_row b
      upsertByKey Prod.fst d (row.booking_number, row))
    []

/-! ## Dedup in the sync fetch (src/function_app/shared/bookeo_client.py) -/

/-- The deduplication loop of fetch_bookings_by_date_range lines 114-123: walk
    the gathered records keeping a seen-set of booking numbers, appending a
    record only when its bookingNumber is truthy and not yet seen. -/
def dedupe_by_booking_number (seen : List String) : List Booking → List Booking
  | [] => []
  | b :: rest =>
    match b.bookingNumber with
    | none => dedupe_by_booking_number seen rest
    | some bn =>
      if bn ≠ "" ∧ bn ∉ seen then b :: dedupe_by_booking_number (bn :: seen) rest
      else dedupe_by_booking_number seen rest

/-! ## Webhook signature verification
    src/shared/webhook_auth.py lines 11-44 and the local copy in
    src/webhook/function_app.py lines 32-59. Byte strings are List Nat; the
    HMAC-SHA256 hex digest primitive is the parameter hmacHex taking the key
    and the message; hmac.compare_digest is constant-time string equality;
    time.time() * 1000 is the parameter nowMs. -/

/-- One step of a strict UTF-8 decoder, folding over the bytes. The state is
    none after a decode error, else the decoded characters plus an optional
    pending multi-byte sequence (bytes still expected, accumulated value,
    smallest legal code point, guarding overlong forms). -/
def utf8Step (st : Option (List Char × Option (Nat × Nat × Nat))) (b : Nat) :
    Option (List Char × Option (Nat × Nat × Nat)) :=
  match st with
  | none => none
  | some (cs, none) =>
    if b < 0x80 then some (cs ++ [Char.ofNat b], none)
    else if 0xC0 ≤ b ∧ b ≤ 0xDF then some (cs, some (1, b - 0xC0, 0x80))
    else if 0xE0 ≤ b ∧ b ≤ 0xEF then some (cs, some (2, b - 0xE0, 0x800))
    else if 0xF0 ≤ b ∧ b ≤ 0xF7 then some (cs, some (3, b - 0xF0, 0x10000))
    else none
  | some (cs, some (k, acc, minCp)) =>
    if 0x80 ≤ b ∧ b < 0xC0 then
      let acc2 := acc * 64 + (b - 0x80)
      if k = 1 then
        if minCp ≤ acc2 ∧ acc2 ≤ 0x10FFFF ∧ ¬(0xD800 ≤ acc2 ∧ acc2 ≤ 0xDFFF) then
          some (cs ++ [Char.ofNat acc2], none)
        else none
      else some (cs, some (k - 1, acc2, minCp))
    else none

/-- bytes.decode with strict UTF-8: the decoded text, or none on a decode
    error (the UnicodeDecodeError case). -/
def utf8Decode? (bs : List Nat) : Option String :=
  match bs.foldl utf8Step (some ([], none)) with
  | some (cs, none) => some ⟨cs⟩
  | _ => none

/-- int() on a header string: optional surrounding whitespace, an optional
    sign, then one or more decimal digits. -/
def pyInt? (s : String) : Option Int :=
  let digitsValue : List Char → Option Nat := fun ds =>
    if ds = [] then none
    else ds.foldl (fun acc c => do pure ((← acc) * 10 + (← digitVal? c))) (some 0)
  match (pyStrip s).toList with
  | '+' :: ds => (digitsValue ds).map (fun n => (n : Int))
  | '-' :: ds => (digitsValue ds).map (fun n => -(n : Int))
  | ds => (digitsValue ds).map (fun n => (n : Int))

/-- verify_bookeo_signature from src/shared/webhook_auth.py lines 11-44.
    The timestamp parse and the freshness check sit inside a try that catches
    ValueError, but body.decode runs after the try: a non-UTF-8 body raises
    UnicodeDecodeError out of the function, modelled as Except.error. -/
def sharedVerify (hmacHex : String → String → String) (nowMs : Int) (body : List Nat)
    (timestampHeader messageIdHeader signatureHeader webhookUrl secretKey : String)
    (toleranceSeconds : Int) : Except String Bool :=
  if ¬(timestampHeader ≠ "" ∧ messageIdHeader ≠ "" ∧ signatureHeader ≠ "") then
    Except.ok false
  else
    match pyInt? timestampHeader with
    | none => Except.ok false
    | some ts =>
      if toleranceSeconds * 1000 < |nowMs - ts| then Except.ok false
      else
        match utf8Decode? body with
        | none => Except.error "UnicodeDecodeError"
        | some bodyStr =>
          let hashingMessage := timestampHeader ++ messageIdHeader ++ webhookUrl ++ bodyStr
          Except.ok (hmacHex secretKey hashingMessage == signatureHeader)

/-- verify_bookeo_signature from src/webhook/function_app.py lines 32-59: the
    local copy also requires a truthy body, URL and secret, hard-codes the
    120 000 ms tolerance, and runs body.decode inside the try, so a decode
    error is caught (UnicodeDecodeError is a ValueError) and yields False. -/
def webhookAppVerify (hmacHex : String → String → String) (nowMs : Int) (body : List Nat)
    (timestampHeader messageIdHeader signatureHeader webhookUrl secretKey : String) : Bool :=
  if ¬(body ≠ [] ∧ timestampHeader ≠ "" ∧ messageIdHeader ≠ "" ∧ signatureHeader ≠ "" ∧
       webhookUrl ≠ "" ∧ secretKey ≠ "") then false
  else
    match pyInt? timestampHeader with
    | none => false
    | some ts =>
      if 120000 < |nowMs - ts| then false
      else
        match utf8Decode? body with
        | none => false
        | some bodyStr =>
          let hashingMessage := timestampHeader ++ messageIdHeader ++ webhookUrl ++ bodyStr
          hmacHex secretKey hashingMessage == signatureHeader

/-! ## The main Azure Function webhook endpoint
    bookeo_webhook from src/function_app/function_app.py lines 24-50, which
    imports the shared (throwing) verifier. -/

/-- The outcome of the handler: the HTTP status and whether a sync job was
    put on the queue. -/
structure WebhookResult where
  status : Nat
  enqueued : Bool
deriving DecidableEq, Repr

/-- str.rstrip stripping every trailing slash. -/
def rstripSlash (s : String) : String :=
  ⟨(s.toList.reverse.dropWhile (fun c => c = '/')).reverse⟩

/-- url.split on the question mark, keeping the first part. -/
def stripQuery (s : String) : String := ⟨s.toList.takeWhile (fun c => c ≠ '?')⟩

/-- The webhook URL the handler verifies against, lines 34-36: the
    BOOKEO_WEBHOOK_URL environment value with trailing slashes stripped, and
    when that is falsy and req.url is truthy, req.url up to its query string. -/
def effectiveUrl (envUrl : String) (reqUrl : String) : String :=
  let u := rstripSlash envUrl
  if u = "" ∧ reqUrl ≠ "" then stripQuery reqUrl else u

/-- bookeo_webhook from src/function_app/function_app.py lines 24-50: reject
    an empty body with 400; verify the signature only when the secret, the
    effective URL and the signature header are all truthy, answering 403 on
    failure; otherwise enqueue a sync job and answer 200. envSecret is
    os.environ.get of BOOKEO_SECRET_KEY. An exception out of the shared
    verifier propagates out of the handler. -/
def FuncApp.bookeo_webhook (hmacHex : String → String → String) (nowMs : Int)
    (body : List Nat) (envSecret : Option String) (envUrl : String) (reqUrl : String)
    (timestampHeader messageIdHeader signatureHeader : String) :
    Except String WebhookResult :=
  if body = [] then Except.ok ⟨400, false⟩
  else
    let url := effectiveUrl envUrl reqUrl
    if truthyS envSecret ∧ url ≠ "" ∧ signatureHeader ≠ "" then
      match sharedVerify hmacHex nowMs body timestampHeader messageIdHeader
          signatureHeader url (envSecret.getD "") 120 with
      | Except.error e => Except.error e
      | Except.ok false => Except.ok ⟨403, false⟩
      | Except.ok true => Except.ok ⟨200, true⟩
    else Except.ok ⟨200, true⟩

/-! ## Upstream error mapping (src/bookeo_client.py lines 20-63) -/

/-- The flat view of a parsed JSON object, enough to read its message and
    error entries. -/
abbrev Jdata : Type := List (String × String)

/-- The facets of a requests.Response the code reads: the status code,
    resp.content emptiness via its text, resp.json() as none when the body is
    malformed JSON, and resp.text / resp.reason. -/
structure HttpResponse where
  status_code : Nat
  content : String
  jsonData : Option Jdata
  text : String
  reason : String

/-- requests.Response.ok: the status code is below 400. -/
def respOk (r : HttpResponse) : Bool := r.status_code < 400

/-- dict.get on the flat JSON view. -/
def jget (d : Jdata) (k : String) : Option String :=
  (List.find? (fun p => p.1 == k) d).map Prod.snd

/-- The data local of BookeoClient._request lines 51-54: parse the body when
    non-empty, and swallow any parse failure into the empty dict. -/
def respData (r : HttpResponse) : Jdata :=
  if r.content ≠ "" then r.jsonData.getD [] else []

/-- BookeoAPIError from src/bookeo_client.py lines 20-27. -/
structure BookeoAPIError where
  message : String
  status_code : Option Nat
  response : Jdata
deriving DecidableEq

/-- The message picked at line 57: data.get message, else data.get error,
    else resp.text or resp.reason. -/
def requestErrMsg (r : HttpResponse) : String :=
  let data := respData r
  (jget data "message").getD ((jget data "error").getD (pyOr (some r.text) r.reason))

/-- BookeoClient._request from src/bookeo_client.py lines 37-63, given the
    response the transport returned: raise BookeoAPIError when resp.ok is
    false, else return the parsed (possibly empty) data. -/
def bookeoRequest (r : HttpResponse) : Except BookeoAPIError Jdata :=
  let data := respData r
  if respOk r = false then
    Except.error ⟨"Bookeo API error: " ++ requestErrMsg r, some r.status_code, data⟩
  else Except.ok data

/-! ## SyncStateStore watermark, modelled from the spec -/

/-- Modelled from the spec: one orchestrated sync pass, carrying the now
    timestamp captured at pass start (spec section 4.7) and the success of
    each window's fetch-map-upsert batch. The SyncStateStore component and the
    Orchestrator's watermark advance (spec sections 4.5 and 4.7) are absent
    from src, where run_sync (src/function_app/function_app.py lines 88-96)
    only triggers fixed-window passes. -/
structure SyncPass where
  nowAtStart : Int
  windowSucceeded : List Bool

/-- Modelled from the spec: a pass fully succeeded when every window in it
    succeeded. -/
def passFullySucceeded (p : SyncPass) : Bool := p.windowSucceeded.all (fun b => b = true)

/-- Modelled from the spec: the stored watermark after one pass — advanced to
    the now captured at pass start only when the pass fully succeeded, left
    unchanged on an aborted pass. -/
def applyPass (wm : Option Int) (p : SyncPass) : Option Int :=
  if passFullySucceeded p then some p.nowAtStart else wm

/-- Comparison on stored watermarks: an absent watermark precedes everything,
    and a present one never becomes absent or smaller. -/
def wmLe : Option Int → Option Int → Bool
  | none, _ => true
  | some _, none => false
  | some a, some b => a ≤ b

/-! ## Concrete records for the counterexamples and witnesses -/

/-- A booking with natural key B-100 and title first. -/
def cexB1 : Booking :=
  { emptyBooking with bookingNumber := some "B-100", title := some "first" }

/-- A booking with natural key B-100 and title second. -/
def cexB2 : Booking :=
  { emptyBooking with bookingNumber := some "B-100", title := some "second" }

/-- A booking whose price has no totalGross but a totalNet carrying USD. -/
def cexNet : Booking :=
  { emptyBooking with
      bookingNumber := some "B-9"
      price := some ⟨none, some ⟨some "10.00", some "USD"⟩, none⟩ }

/-- A booking with a truthy key and an unparsable startTime. -/
def cexBadTs : Booking :=
  { emptyBooking with
      bookingNumber := some "B-1"
      startTime := some "not-a-timestamp-xxxxxxxx" }

/-- A 200 response whose body is not valid JSON. -/
def cexMalformedOk : HttpResponse := ⟨200, "not json", none, "not json", "OK"⟩

/-- A 304 response: not 2xx, yet resp.ok is true. -/
def cexNotModified : HttpResponse := ⟨304, "", none, "", "Not Modified"⟩

/-- A 404 response with a JSON error payload. -/
def cexNotFound : HttpResponse :=
  ⟨404, "x", some [("message", "no such path")], "x", "Not Found"⟩

/-- A mapped row with natural key B-1. -/
def cexRow1 : DbRow := parse_booking_for_db cexBadTs

/-- A fully successful two-window pass starting at clock 100. -/
def cexPass1 : SyncPass := ⟨100, [true, true]⟩

/-- A fully successful one-window pass starting at clock 200. -/
def cexPass2 : SyncPass := ⟨200, [true]⟩

/-! ## Fold views used by the batch lemmas -/

/-- A batch applied row by row, upserting exactly the rows the guard admits:
    the common shape of the three batch loops (the booking_db loop skips falsy
    keys, the script and MERGE loops admit every row). -/
def guardedFold {β κ : Type} [BEq κ] (g : β → Bool) (keyf : β → κ)
    (t : List β) (rows : List β) : List β :=
  rows.foldl (fun acc r => if g r then upsertByKey keyf acc r else acc) t

/-- The last admitted row of a batch carrying key k, if any: the row whose
    values a row-by-row upsert leaves under k. -/
def lastWriteG {β κ : Type} [BEq κ] (g : β → Bool) (keyf : β → κ) (k : κ) :
    List β → Option β
  | [] => none
  | r :: rs =>
    match lastWriteG g keyf k rs with
    | some v => some v
    | none => if g r && (keyf r == k) then some r else none

/-- The flattened row of the last booking in the list whose Excel key equals
    k, if any. -/
def lastExcelRow (k : String) : List Booking → Option ExcelRow
  | [] => none
  | b :: rest =>
    match lastExcelRow k rest with
    | some v => some v
    | none =>
      if (_booking_to_row b).booking_number == k then some (_booking_to_row b) else none

/-! # Theorems -/

/-! ## Window planner lemmas -/

theorem planWindows_nil (s e st : Int) (h : e ≤ s) : planWindows s e st = [] := by
  rw [planWindows]
  rw [dif_neg (by omega : ¬(s < e ∧ 0 < st))]

theorem planWindows_cons (s e st : Int) (h1 : s < e) (h2 : 0 < st) :
    planWindows s e st = (s, min (s + st) e) :: planWindows (min (s + st) e) e st := by
  rw [planWindows]
  rw [dif_pos ⟨h1, h2⟩]

theorem planWindows_mem_bounds (s e st : Int) :
    ∀ w ∈ planWindows s e st, s ≤ w.1 ∧ w.1 < w.2 ∧ w.2 ≤ e ∧ w.2 - w.1 ≤ st := by
  induction s, e, st using planWindows.induct with
  | case1 s e st h ih =>
    rw [planWindows_cons s e st h.1 h.2]
    intro w hw
    rcases List.mem_cons.mp hw with hw | hw
    · subst hw
      refine ⟨le_refl s, ?_, ?_, ?_⟩ <;> simp <;> omega
    · have hb := ih w hw
      have : s ≤ min (s + st) e := by omega
      exact ⟨by omega, hb.2.1, hb.2.2.1, hb.2.2.2⟩
  | case2 s e st h =>
    rw [planWindows, dif_neg h]
    intro w hw
    simp at hw

theorem planWindows_pairwise (s e st : Int) :
    List.Pairwise (fun a b : Int × Int => a.2 ≤ b.1) (planWindows s e st) := by
  induction s, e, st using planWindows.induct with
  | case1 s e st h ih =>
    rw [planWindows_cons s e st h.1 h.2]
    refine List.Pairwise.cons ?_ ih
    intro w hw
    exact (planWindows_mem_bounds _ _ _ w hw).1
  | case2 s e st h =>
    rw [planWindows, dif_neg h]
    exact List.Pairwise.nil

theorem planWindows_chain (s e st : Int) :
    List.Chain' (fun a b : Int × Int => a.2 = b.1) (planWindows s e st) := by
  induction s, e, st using planWindows.induct with
  | case1 s e st h ih =>
    rw [planWindows_cons s e st h.1 h.2]
    refine List.chain'_cons'.mpr ⟨?_, ih⟩
    intro b hb
    by_cases hm : min (s + st) e < e
    · rw [planWindows_cons _ _ _ hm h.2] at hb
      simp at hb
      rw [← hb]
    · rw [planWindows_nil _ _ _ (by omega)] at hb
      simp at hb
  | case2 s e st h =>
    rw [planWindows, dif_neg h]
    exact List.chain'_nil

theorem getLast?_cons_of_ne {α : Type} (a : α) {l : List α} (h : l ≠ []) :
    (a :: l).getLast? = l.getLast? := by
  cases l with
  | nil => exact absurd rfl h
  | cons b t => exact List.getLast?_cons_cons

theorem planWindows_getLast (s e st : Int) :
    s < e → 0 < st → (planWindows s e st).getLast?.map Prod.snd = some e := by
  induction s, e, st using planWindows.induct with
  | case1 s e st h ih =>
    intro h1 h2
    rw [planWindows_cons s e st h1 h2]
    by_cases hm : min (s + st) e < e
    · rw [getLast?_cons_of_ne]
      · exact ih hm h2
      · rw [planWindows_cons _ _ _ hm h2]
        simp
    · have hme : min (s + st) e = e := by omega
      rw [hme, planWindows_nil e e st (le_refl e)]
      simp
  | case2 s e st h =>
    intro h1 h2
    exact absurd ⟨h1, h2⟩ h

theorem planWindows_cover (s e st : Int) :
    0 < st → ∀ t : Int, (s ≤ t ∧ t < e) ↔ ∃ w ∈ planWindows s e st, w.1 ≤ t ∧ t < w.2 := by
  induction s, e, st using planWindows.induct with
  | case1 s e st h ih =>
    intro hst t
    rw [planWindows_cons s e st h.1 h.2]
    constructor
    · rintro ⟨hs, he⟩
      by_cases htm : t < min (s + st) e
      · exact ⟨(s, min (s + st) e), List.mem_cons_self _ _, hs, htm⟩
      · obtain ⟨w, hw, hw1, hw2⟩ := (ih hst t).mp ⟨by omega, he⟩
        exact ⟨w, List.mem_cons_of_mem _ hw, hw1, hw2⟩
    · rintro ⟨w, hw, hw1, hw2⟩
      rcases List.mem_cons.mp hw with hww | hww
      · subst hww
        simp at hw1 hw2
        constructor
        · exact hw1
        · omega
      · have := (ih hst t).mpr ⟨w, hww, hw1, hw2⟩
        constructor
        · have : s ≤ min (s + st) e := by omega
          omega
        · exact this.2
  | case2 s e st h =>
    intro hst t
    rw [planWindows, dif_neg h]
    simp
    omega

/-- C2: window planning. For every start before end (with a positive chunk
    step) the emitted windows begin at start, end at end, are contiguous
    (each window's end is the next window's start) and non-overlapping, each
    window is non-empty and at most one step long, and together they cover
    exactly the half-open range; start at or after end yields the empty
    sequence; concretely, 2026-01-01 to 2026-02-15 with the 31-day step
    splits into 2026-01-01..2026-02-01 then 2026-02-01..2026-02-15. -/
theorem window_planning_correct :
    (∀ s e st : Int, e ≤ s → planWindows s e st = []) ∧
    (∀ s e st : Int, s < e → 0 < st →
      ((planWindows s e st).head?.map Prod.fst = some s) ∧
      ((planWindows s e st).getLast?.map Prod.snd = some e) ∧
      List.Chain' (fun a b : Int × Int => a.2 = b.1) (planWindows s e st) ∧
      List.Pairwise (fun a b : Int × Int => a.2 ≤ b.1) (planWindows s e st) ∧
      (∀ w ∈ planWindows s e st, w.1 < w.2 ∧ w.2 - w.1 ≤ st) ∧
      (∀ t : Int, (s ≤ t ∧ t < e) ↔ ∃ w ∈ planWindows s e st, w.1 ≤ t ∧ t < w.2)) ∧
    planWindows date20260101 date20260215 (daysToSeconds MAX_DAYS_PER_CALL) =
      [(date20260101, date20260201), (date20260201, date20260215)] := by
  refine ⟨planWindows_nil, ?_, ?_⟩
  · intro s e st h1 h2
    refine ⟨?_, planWindows_getLast s e st h1 h2, planWindows_chain s e st,
      planWindows_pairwise s e st, ?_, planWindows_cover s e st h2⟩
    · rw [planWindows_cons s e st h1 h2]
      rfl
    · intro w hw
      have hb := planWindows_mem_bounds s e st w hw
      exact ⟨hb.2.1, hb.2.2.2⟩
  · unfold date20260101 date20260201 date20260215 daysToSeconds MAX_DAYS_PER_CALL
    rw [planWindows]
    norm_num [Int.min_def]
    rw [planWindows]
    norm_num [Int.min_def]
    rw [planWindows]
    norm_num

/-- Witness for window_planning_correct at the concrete range 0..45 with step
    31 and at the degenerate range 45..45. -/
theorem window_planning_correct_witness :
    ((0:Int) < 45 ∧ (0:Int) < 31 ∧ (45:Int) ≤ 45) ∧
    (planWindows 0 45 31).head?.map Prod.fst = some 0 ∧
    planWindows 45 45 31 = [] :=
  ⟨⟨by norm_num, by norm_num, by norm_num⟩,
   (window_planning_correct.2.1 0 45 31 (by norm_num) (by norm_num)).1,
   window_planning_correct.1 45 45 31 (by norm_num)⟩

/-! ## Association-list store lemmas -/

theorem hasKey_eq_isSome {β κ : Type} [BEq κ] (keyf : β → κ) (t : List β) (k : κ) :
    hasKey keyf t k = (findByKey keyf t k).isSome := by
  induction t with
  | nil => rfl
  | cons r t ih =>
    simp only [hasKey, findByKey, List.any_cons, List.find?_cons] at *
    by_cases hrk : keyf r == k
    · simp [hrk]
    · simp [hrk, ih]

theorem findByKey_update_hit {β κ : Type} [BEq κ] [LawfulBEq κ] (keyf : β → κ)
    (x : β) (t : List β) (k : κ) (hxk : keyf x == k) (ht : hasKey keyf t k = true) :
    findByKey keyf (updateByKey keyf x t) k = some x := by
  induction t with
  | nil => simp [hasKey] at ht
  | cons r t ih =>
    by_cases hrk : keyf r == k
    · have hrx : keyf r == keyf x := by
        rw [eq_of_beq hrk, eq_of_beq hxk]
        exact beq_self_eq_true k
      have hd : updateByKey keyf x (r :: t) = x :: updateByKey keyf x t := by
        simp [updateByKey, hrx]
      rw [hd]
      show List.find? (fun r => keyf r == k) (x :: updateByKey keyf x t) = some x
      simp only [List.find?_cons, hxk]
    · have hrx : (keyf r == keyf x) = false := by
        rw [beq_eq_false_iff_ne]
        intro hcon
        rw [hcon] at hrk
        exact hrk hxk
      have ht2 : hasKey keyf t k = true := by
        simp only [hasKey, List.any_cons, hrk, Bool.false_or] at ht
        exact ht
      have hd : updateByKey keyf x (r :: t) = r :: updateByKey keyf x t := by
        simp [updateByKey, hrx]
      rw [hd]
      show List.find? (fun r => keyf r == k) (r :: updateByKey keyf x t) = some x
      simp only [List.find?_cons, hrk]
      exact ih ht2

theorem findByKey_update_miss {β κ : Type} [BEq κ] [LawfulBEq κ] (keyf : β → κ)
    (x : β) (t : List β) (k : κ) (hxk : (keyf x == k) = false) :
    findByKey keyf (updateByKey keyf x t) k = findByKey keyf t k := by
  induction t with
  | nil => rfl
  | cons r t ih =>
    by_cases hrx : keyf r == keyf x
    · have hrk : (keyf r == k) = false := by
        rw [eq_of_beq hrx]
        exact hxk
      have hd : updateByKey keyf x (r :: t) = x :: updateByKey keyf x t := by
        simp [updateByKey, hrx]
      rw [hd]
      show List.find? (fun r => keyf r == k) (x :: updateByKey keyf x t)
        = List.find? (fun r => keyf r == k) (r :: t)
      simp only [List.find?_cons, hxk, hrk]
      exact ih
    · have hd : updateByKey keyf x (r :: t) = r :: updateByKey keyf x t := by
        simp [updateByKey, hrx]
      rw [hd]
      show List.find? (fun r => keyf r == k) (r :: updateByKey keyf x t)
        = List.find? (fun r => keyf r == k) (r :: t)
      by_cases hrk : keyf r == k
      · simp only [List.find?_cons, hrk]
      · simp only [List.find?_cons, hrk]
        exact ih

theorem findByKey_append_single {β κ : Type} [BEq κ] (keyf : β → κ)
    (x : β) (t : List β) (k : κ) :
    findByKey keyf (t ++ [x]) k =
      match findByKey keyf t k with
      | some r => some r
      | none => if keyf x == k then some x else none := by
  induction t with
  | nil =>
    show List.find? (fun r => keyf r == k) [x] = _
    simp only [findByKey, List.find?_nil, List.find?_cons]
    by_cases hxk : keyf x == k
    · simp [hxk]
    · simp [hxk]
  | cons r t ih =>
    show List.find? (fun r => keyf r == k) (r :: (t ++ [x])) = _
    simp only [findByKey, List.find?_cons] at *
    by_cases hrk : keyf r == k
    · simp [hrk]
    · simp only [hrk]
      exact ih

theorem findByKey_upsert {β κ : Type} [BEq κ] [LawfulBEq κ] (keyf : β → κ)
    (t : List β) (x : β) (k : κ) :
    findByKey keyf (upsertByKey keyf t x) k =
      if keyf x == k then some x else findByKey keyf t k := by
  unfold upsertByKey
  by_cases ht : hasKey keyf t (keyf x) = true
  · rw [if_pos ht]
    by_cases hxk : keyf x == k
    · rw [if_pos hxk]
      refine findByKey_update_hit keyf x t k hxk ?_
      rw [← eq_of_beq hxk]
      exact ht
    · rw [if_neg hxk, findByKey_update_miss keyf x t k (by simpa using hxk)]
  · rw [if_neg ht]
    have hnone : findByKey keyf t (keyf x) = none := by
      rw [hasKey_eq_isSome] at ht
      cases hfind : findByKey keyf t (keyf x) with
      | none => rfl
      | some r => rw [hfind] at ht; simp at ht
    rw [findByKey_append_single]
    by_cases hxk : keyf x == k
    · have hk : findByKey keyf t k = none := by
        rw [← eq_of_beq hxk]
        exact hnone
      rw [hk, if_pos hxk]
    · cases hfind : findByKey keyf t k with
      | none => simp [hxk]
      | some r => simp [hxk]

theorem length_upsertByKey {β κ : Type} [BEq κ] (keyf : β → κ) (t : List β) (x : β) :
    (upsertByKey keyf t x).length =
      if hasKey keyf t (keyf x) then t.length else t.length + 1 := by
  unfold upsertByKey
  by_cases ht : hasKey keyf t (keyf x) = true
  · simp [ht, updateByKey]
  · simp [ht]

theorem hasKey_upsertByKey {β κ : Type} [BEq κ] [LawfulBEq κ] (keyf : β → κ)
    (t : List β) (x : β) (k : κ) :
    hasKey keyf (upsertByKey keyf t x) k = (hasKey keyf t k || (keyf x == k)) := by
  rw [hasKey_eq_isSome, findByKey_upsert, hasKey_eq_isSome]
  by_cases hxk : keyf x == k
  · simp [hxk]
  · simp [hxk]

/-! ## Guarded batch fold lemmas -/

theorem guardedFold_cons {β κ : Type} [BEq κ] (g : β → Bool) (keyf : β → κ)
    (t : List β) (r : β) (rs : List β) :
    guardedFold g keyf t (r :: rs)
      = guardedFold g keyf (if g r then upsertByKey keyf t r else t) rs := rfl

theorem findByKey_guardedFold {β κ : Type} [BEq κ] [LawfulBEq κ] (g : β → Bool)
    (keyf : β → κ) (t : List β) (rows : List β) (k : κ) :
    findByKey keyf (guardedFold g keyf t rows) k =
      match lastWriteG g keyf k rows with
      | some v => some v
      | none => findByKey keyf t k := by
  induction rows generalizing t with
  | nil => rfl
  | cons r rs ih =>
    rw [guardedFold_cons, ih]
    cases hlast : lastWriteG g keyf k rs with
    | some v => simp [lastWriteG, hlast]
    | none =>
      simp only [lastWriteG, hlast]
      by_cases hg : g r
      · rw [if_pos hg, findByKey_upsert]
        by_cases hrk : keyf r == k
        · simp [hg, hrk]
        · simp [hg, hrk]
      · rw [if_neg hg]
        simp [hg]

theorem lastWriteG_isSome_of_mem {β κ : Type} [BEq κ] [LawfulBEq κ] (g : β → Bool)
    (keyf : β → κ) (rows : List β) (r : β) (hr : r ∈ rows) (hg : g r = true) :
    (lastWriteG g keyf (keyf r) rows).isSome = true := by
  induction rows with
  | nil => simp at hr
  | cons x rs ih =>
    rcases List.mem_cons.mp hr with hx | hx
    · subst hx
      cases hlast : lastWriteG g keyf (keyf r) rs with
      | some v => simp [lastWriteG, hlast]
      | none => simp [lastWriteG, hlast, hg]
    · have := ih hx
      cases hlast : lastWriteG g keyf (keyf r) rs with
      | some v => simp [lastWriteG, hlast]
      | none => rw [hlast] at this; simp at this

theorem hasKey_guardedFold_of_mem {β κ : Type} [BEq κ] [LawfulBEq κ] (g : β → Bool)
    (keyf : β → κ) (t : List β) (rows : List β) (r : β)
    (hr : r ∈ rows) (hg : g r = true) :
    hasKey keyf (guardedFold g keyf t rows) (keyf r) = true := by
  rw [hasKey_eq_isSome, findByKey_guardedFold]
  cases hlast : lastWriteG g keyf (keyf r) rows with
  | some v => rfl
  | none =>
    have := lastWriteG_isSome_of_mem g keyf rows r hr hg
    rw [hlast] at this
    simp at this

theorem length_guardedFold_of_present {β κ : Type} [BEq κ] [LawfulBEq κ] (g : β → Bool)
    (keyf : β → κ) (rows : List β) :
    ∀ t : List β, (∀ r ∈ rows, g r = true → hasKey keyf t (keyf r) = true) →
      (guardedFold g keyf t rows).length = t.length := by
  induction rows with
  | nil => intro t _; rfl
  | cons r rs ih =>
    intro t h
    rw [guardedFold_cons]
    by_cases hg : g r
    · rw [if_pos hg]
      have h1 : hasKey keyf t (keyf r) = true := h r (List.mem_cons_self r rs) hg
      have hlen : (upsertByKey keyf t r).length = t.length := by
        rw [length_upsertByKey, if_pos h1]
      rw [ih (upsertByKey keyf t r) ?_, hlen]
      intro q hq hgq
      rw [hasKey_upsertByKey]
      have := h q (List.mem_cons_of_mem r hq) hgq
      simp [this]
    · rw [if_neg hg]
      refine ih t ?_
      intro q hq hgq
      exact h q (List.mem_cons_of_mem r hq) hgq

theorem applyBatch_eq_guardedFold (t : List DbRow) (rows : List DbRow) :
    BookingDb.applyBatch t rows
      = guardedFold (fun r => truthyS r.booking_number) DbRow.booking_number t rows := by
  induction rows generalizing t with
  | nil => rfl
  | cons r rs ih =>
    rw [guardedFold_cons]
    show BookingDb.applyBatch ((BookingDb.upsert_booking t r).1) rs = _
    by_cases hg : truthyS r.booking_number
    · rw [if_pos hg]
      have : (BookingDb.upsert_booking t r).1 = upsertByKey DbRow.booking_number t r := by
        simp [BookingDb.upsert_booking, hg]
      rw [this, ih]
    · rw [if_neg hg]
      have : (BookingDb.upsert_booking t r).1 = t := by
        simp only [Bool.not_eq_true] at hg
        simp [BookingDb.upsert_booking, hg]
      rw [this, ih]

theorem azureBatch_eq_guardedFold (t : List DbRow) (rows : List DbRow) :
    (LoadScript.upsert_to_azure_sql t rows).1
      = guardedFold (fun _ => true) DbRow.booking_number t rows := by
  induction rows generalizing t with
  | nil => rfl
  | cons r rs ih =>
    rw [guardedFold_cons, if_pos rfl]
    show (LoadScript.upsert_to_azure_sql (upsertByKey DbRow.booking_number t r) rs).1 = _
    exact ih _

/-- C1: upsert idempotence. Applying the same batch of mapped rows a second
    time leaves the destination unchanged: for the booking_db loop (which
    skips rows with a falsy natural key) the row count and the row stored
    under every key are the same after the second application, for any batch;
    for the script loop the same holds for batches of rows with truthy keys
    (the caller filters exactly those; the truthiness hypothesis keeps the
    statement inside the domain where list update models SQL equality on the
    key column, since SQL NULL never matches itself). -/
theorem upsert_batch_idempotent :
    (∀ (table batch : List DbRow),
      (BookingDb.applyBatch (BookingDb.applyBatch table batch) batch).length
        = (BookingDb.applyBatch table batch).length ∧
      (∀ k : Option String,
        findByKey DbRow.booking_number
            (BookingDb.applyBatch (BookingDb.applyBatch table batch) batch) k
          = findByKey DbRow.booking_number (BookingDb.applyBatch table batch) k)) ∧
    (∀ (table rows : List DbRow), (∀ r ∈ rows, truthyS r.booking_number = true) →
      (LoadScript.upsert_to_azure_sql
          (LoadScript.upsert_to_azure_sql table rows).1 rows).1.length
        = (LoadScript.upsert_to_azure_sql table rows).1.length ∧
      (∀ k : Option String,
        findByKey DbRow.booking_number
            (LoadScript.upsert_to_azure_sql
              (LoadScript.upsert_to_azure_sql table rows).1 rows).1 k
          = findByKey DbRow.booking_number
              (LoadScript.upsert_to_azure_sql table rows).1 k)) := by
  constructor
  · intro table batch
    rw [applyBatch_eq_guardedFold table batch,
      applyBatch_eq_guardedFold (guardedFold _ _ table batch) batch]
    constructor
    · refine length_guardedFold_of_present _ _ _ _ ?_
      intro r hr hg
      exact hasKey_guardedFold_of_mem _ _ _ _ r hr hg
    · intro k
      rw [findByKey_guardedFold, findByKey_guardedFold]
      cases hlast : lastWriteG (fun r => truthyS r.booking_number)
          DbRow.booking_number k batch with
      | some v => rfl
      | none => rfl
  · intro table rows _
    rw [azureBatch_eq_guardedFold table rows,
      azureBatch_eq_guardedFold (guardedFold _ _ table rows) rows]
    constructor
    · refine length_guardedFold_of_present _ _ _ _ ?_
      intro r hr hg
      exact hasKey_guardedFold_of_mem _ _ _ _ r hr hg
    · intro k
      rw [findByKey_guardedFold, findByKey_guardedFold]
      cases hlast : lastWriteG (fun _ => true) DbRow.booking_number k rows with
      | some v => rfl
      | none => rfl

/-- Witness for upsert_batch_idempotent: the script-loop half at the batch
    holding the one concrete mapped row with natural key B-1. -/
theorem upsert_batch_idempotent_witness :
    (∀ r ∈ [cexRow1], truthyS r.booking_number = true) ∧
    (LoadScript.upsert_to_azure_sql
        (LoadScript.upsert_to_azure_sql [] [cexRow1]).1 [cexRow1]).1.length
      = (LoadScript.upsert_to_azure_sql [] [cexRow1]).1.length :=
  ⟨by decide, (upsert_batch_idempotent.2 [] [cexRow1] (by decide)).1⟩

/-- C4: webhook freshness. Whenever the timestamp header parses to ts and the
    absolute difference between the verifier's clock and ts exceeds the
    tolerance (tolerance seconds times 1000 milliseconds; the local copy
    hard-codes 120000 ms), verification reports not-verified, for every body,
    every other header, every secret and every HMAC outcome — in particular
    for a correct signature. -/
theorem webhook_freshness :
    (∀ (hmacHex : String → String → String) (nowMs : Int) (body : List Nat)
        (tsH midH sigH url secret : String) (tolSec ts : Int),
      pyInt? tsH = some ts → tolSec * 1000 < |nowMs - ts| →
      sharedVerify hmacHex nowMs body tsH midH sigH url secret tolSec
        = Except.ok false) ∧
    (∀ (hmacHex : String → String → String) (nowMs : Int) (body : List Nat)
        (tsH midH sigH url secret : String) (ts : Int),
      pyInt? tsH = some ts → 120000 < |nowMs - ts| →
      webhookAppVerify hmacHex nowMs body tsH midH sigH url secret = false) := by
  constructor
  · intro hmacHex nowMs body tsH midH sigH url secret tolSec ts hts hstale
    by_cases hh : tsH ≠ "" ∧ midH ≠ "" ∧ sigH ≠ ""
    · simp [sharedVerify, hts, hh, hstale]
    · simp [sharedVerify, hh]
  · intro hmacHex nowMs body tsH midH sigH url secret ts hts hstale
    by_cases hh : body ≠ [] ∧ tsH ≠ "" ∧ midH ≠ "" ∧ sigH ≠ "" ∧ url ≠ "" ∧ secret ≠ ""
    · simp [webhookAppVerify, hts, hh, hstale]
    · simp [webhookAppVerify, hh]

/-- Witness for webhook_freshness: clock at 200001 ms, timestamp header 0,
    tolerance 120 s, and the signature header set to the correct HMAC of the
    canonical message — verification still reports not-verified. -/
theorem webhook_freshness_witness :
    pyInt? "0" = some 0 ∧ ((120 : Int) * 1000 < |(200001 : Int) - 0|) ∧
    sharedVerify (fun k m => k ++ m) 200001 [65] "0" "mid"
        ((fun (k m : String) => k ++ m) "secret" ("0" ++ "mid" ++ "url" ++ "A"))
        "url" "secret" 120
      = Except.ok false :=
  ⟨by decide, by decide,
   webhook_freshness.1 (fun k m => k ++ m) 200001 [65] "0" "mid"
     ((fun (k m : String) => k ++ m) "secret" ("0" ++ "mid" ++ "url" ++ "A"))
     "url" "secret" 120 0 (by decide) (by decide)⟩

/-- C5: the shared verifier is not total. At a fresh, correctly-headed request
    whose body is the single byte 255 (not valid UTF-8), the shared verifier
    raises UnicodeDecodeError out of the function (body.decode runs after the
    try block that catches ValueError), while the local webhook copy, which
    decodes inside its try block, returns False on the same input as the spec
    prescribes. -/
theorem sharedVerify_raises_on_invalid_utf8 :
    sharedVerify (fun _ _ => "") 1000 [255] "1000" "mid" "sig" "url" "secret" 120
      = Except.error "UnicodeDecodeError" ∧
    webhookAppVerify (fun _ _ => "") 1000 [255] "1000" "mid" "sig" "url" "secret"
      = false := by
  constructor
  · rfl
  · rfl

/-- C6: mapping leniency. A record whose natural key is truthy is always
    upserted with its mapped values — whatever its timestamp fields hold —
    because parse_datetime is total: an unparsable non-empty timestamp is
    passed through as its first 19 characters; and a record whose natural key
    is absent or empty is dropped, leaving the table untouched. -/
theorem mapping_leniency :
    (∀ (table : List SqlRow) (b : Booking), truthyS b.bookingNumber = true →
      findByKey SqlRow.BookingNumber (SqlClient.upsert_booking table b)
          ((_booking_values b).BookingNumber)
        = some (_booking_values b)) ∧
    (∀ v : String, v ≠ "" → fromisoformat? (replaceZ v) = none →
      parse_datetime (some v) = some (v.take 19)) ∧
    (∀ (table : List SqlRow) (b : Booking), truthyS b.bookingNumber = false →
      SqlClient.upsert_booking table b = table) := by
  refine ⟨?_, ?_, ?_⟩
  · intro table b hb
    have hstep : SqlClient.upsert_booking table b
        = upsertByKey SqlRow.BookingNumber table (_booking_values b) := by
      simp [SqlClient.upsert_booking, hb]
    rw [hstep, findByKey_upsert]
    simp
  · intro v hv hparse
    simp [parse_datetime, hv, hparse]
  · intro table b hb
    simp [SqlClient.upsert_booking, hb]

/-- Witness for mapping_leniency: the concrete record with key B-1 whose
    startTime is unparsable is still stored, and the unparsable value maps to
    its first 19 characters. -/
theorem mapping_leniency_witness :
    truthyS cexBadTs.bookingNumber = true ∧
    ("not-a-timestamp-xxxxxxxx" ≠ "" ∧
      fromisoformat? (replaceZ "not-a-timestamp-xxxxxxxx") = none) ∧
    findByKey SqlRow.BookingNumber (SqlClient.upsert_booking [] cexBadTs)
        ((_booking_values cexBadTs).BookingNumber)
      = some (_booking_values cexBadTs) ∧
    parse_datetime (some "not-a-timestamp-xxxxxxxx") = some "not-a-timestamp-xxx" :=
  ⟨by decide, ⟨by decide, by decide⟩,
   mapping_leniency.1 [] cexBadTs (by decide),
   by
    rw [mapping_leniency.2.1 "not-a-timestamp-xxxxxxxx" (by decide) (by decide)]
    decide⟩

/-! ## Dedup lemmas -/

theorem dedupe_mem_truthy (bs : List Booking) :
    ∀ seen : List String, ∀ b ∈ dedupe_by_booking_number seen bs,
      b ∈ bs ∧ truthyS b.bookingNumber = true := by
  induction bs with
  | nil => intro seen b hb; simp [dedupe_by_booking_number] at hb
  | cons x rest ih =>
    intro seen b hb
    cases hx : x.bookingNumber with
    | none =>
      simp only [dedupe_by_booking_number, hx] at hb
      obtain ⟨hmem, ht⟩ := ih seen b hb
      exact ⟨List.mem_cons_of_mem x hmem, ht⟩
    | some bn =>
      simp only [dedupe_by_booking_number, hx] at hb
      by_cases hnew : bn ≠ "" ∧ bn ∉ seen
      · rw [if_pos hnew] at hb
        rcases List.mem_cons.mp hb with hb | hb
        · subst hb
          refine ⟨List.mem_cons_self b rest, ?_⟩
          simp [truthyS, hx, hnew.1]
        · obtain ⟨hmem, ht⟩ := ih (bn :: seen) b hb
          exact ⟨List.mem_cons_of_mem x hmem, ht⟩
      · rw [if_neg hnew] at hb
        obtain ⟨hmem, ht⟩ := ih seen b hb
        exact ⟨List.mem_cons_of_mem x hmem, ht⟩

theorem dedupe_avoids_seen (bs : List Booking) :
    ∀ seen : List String, ∀ s ∈ seen, ∀ b ∈ dedupe_by_booking_number seen bs,
      b.bookingNumber ≠ some s := by
  induction bs with
  | nil => intro seen s _ b hb; simp [dedupe_by_booking_number] at hb
  | cons x rest ih =>
    intro seen s hs b hb
    cases hx : x.bookingNumber with
    | none =>
      simp only [dedupe_by_booking_number, hx] at hb
      exact ih seen s hs b hb
    | some bn =>
      simp only [dedupe_by_booking_number, hx] at hb
      by_cases hnew : bn ≠ "" ∧ bn ∉ seen
      · rw [if_pos hnew] at hb
        rcases List.mem_cons.mp hb with hb | hb
        · subst hb
          rw [hx]
          intro hcon
          have hbs : bn = s := by injection hcon
          exact hnew.2 (by rwa [hbs])
        · exact ih (bn :: seen) s (List.mem_cons_of_mem bn hs) b hb
      · rw [if_neg hnew] at hb
        exact ih seen s hs b hb

theorem dedupe_pairwise_keys (bs : List Booking) :
    ∀ seen : List String,
      List.Pairwise (fun a b : Booking => a.bookingNumber ≠ b.bookingNumber)
        (dedupe_by_booking_number seen bs) := by
  induction bs with
  | nil => intro seen; simp [dedupe_by_booking_number]
  | cons x rest ih =>
    intro seen
    cases hx : x.bookingNumber with
    | none => simp only [dedupe_by_booking_number, hx]; exact ih seen
    | some bn =>
      simp only [dedupe_by_booking_number, hx]
      by_cases hnew : bn ≠ "" ∧ bn ∉ seen
      · rw [if_pos hnew]
        refine List.Pairwise.cons ?_ (ih (bn :: seen))
        intro b hb
        have hne := dedupe_avoids_seen rest (bn :: seen) bn (List.mem_cons_self bn seen) b hb
        rw [hx]
        exact fun hcon => hne hcon.symm
      · rw [if_neg hnew]
        exact ih seen

theorem dedupe_find_first (bs : List Booking) :
    ∀ (seen : List String) (k : String), k ≠ "" → k ∉ seen →
      (dedupe_by_booking_number seen bs).find? (fun b => b.bookingNumber == some k)
        = bs.find? (fun b => b.bookingNumber == some k) := by
  induction bs with
  | nil => intro seen k _ _; rfl
  | cons x rest ih =>
    intro seen k hk hks
    cases hx : x.bookingNumber with
    | none =>
      have hbeq : ((x.bookingNumber == some k) : Bool) = false := by simp [hx]
      simp only [dedupe_by_booking_number, hx, List.find?_cons, hbeq]
      exact ih seen k hk hks
    | some bn =>
      by_cases hbnk : bn = k
      · subst hbnk
        have hnew : bn ≠ "" ∧ bn ∉ seen := ⟨hk, hks⟩
        have hbeq : ((some bn : Option String) == some bn) = true := by simp
        simp only [dedupe_by_booking_number, hx, if_pos hnew, List.find?_cons, hbeq]
      · have hbeq : ((some bn : Option String) == some k) = false := by simp [hbnk]
        by_cases hnew : bn ≠ "" ∧ bn ∉ seen
        · simp only [dedupe_by_booking_number, hx, if_pos hnew, List.find?_cons, hbeq]
          refine ih (bn :: seen) k hk ?_
          intro hcon
          rcases List.mem_cons.mp hcon with h | h
          · exact hbnk h.symm
          · exact hks h
        · simp only [dedupe_by_booking_number, hx, if_neg hnew, List.find?_cons, hbeq]
          exact ih seen k hk hks

/-! ## Excel dict lemma -/

theorem findByKey_excelFold (bs : List Booking) :
    ∀ (d : List (String × ExcelRow)) (k : String),
      findByKey Prod.fst
          (bs.foldl
            (fun d b =>
              upsertByKey Prod.fst d ((_booking_to_row b).booking_number, _booking_to_row b))
            d) k
        = match lastExcelRow k bs with
          | some row => some (k, row)
          | none => findByKey Prod.fst d k := by
  induction bs with
  | nil => intro d k; rfl
  | cons b rest ih =>
    intro d k
    rw [List.foldl_cons, ih]
    cases hlast : lastExcelRow k rest with
    | some row => simp [lastExcelRow, hlast]
    | none =>
      simp only [lastExcelRow, hlast]
      rw [findByKey_upsert]
      by_cases hbk : ((_booking_to_row b).booking_number == k) = true
      · have hkey : (_booking_to_row b).booking_number = k := eq_of_beq hbk
        simp [hbk, hkey]
      · simp only [Bool.not_eq_true] at hbk
        simp [hbk]

/-- Counterexample to C7 as stated: two records share natural key B-100 with
    different field values, and the sync pass dedup retains the FIRST-seen
    record, not the last-seen one. -/
theorem dedupe_keeps_first_counterexample :
    dedupe_by_booking_number [] [cexB1, cexB2] = [cexB1] ∧
    cexB1.bookingNumber = some "B-100" ∧
    cexB2.bookingNumber = some "B-100" ∧
    cexB1 ≠ cexB2 := by
  refine ⟨by decide, rfl, rfl, by decide⟩

/-- C7 amended: the sync pass deduplicates by natural key with FIRST-seen-wins
    (each retained record is in the input, carries a truthy key, keys are
    pairwise distinct, and the record stored under a non-empty key is the
    first input record with that key), while the Excel export's key_to_row
    dict retains the LAST occurrence of each key. -/
theorem dedupe_first_wins_excel_last_wins :
    (∀ bs : List Booking,
      List.Pairwise (fun a b : Booking => a.bookingNumber ≠ b.bookingNumber)
        (dedupe_by_booking_number [] bs)) ∧
    (∀ (bs : List Booking) (b : Booking), b ∈ dedupe_by_booking_number [] bs →
      b ∈ bs ∧ truthyS b.bookingNumber = true) ∧
    (∀ (bs : List Booking) (k : String), k ≠ "" →
      (dedupe_by_booking_number [] bs).find? (fun b => b.bookingNumber == some k)
        = bs.find? (fun b => b.bookingNumber == some k)) ∧
    (∀ (bs : List Booking) (k : String),
      findByKey Prod.fst (excelKeyRows bs) k
        = (lastExcelRow k bs).map (fun row => (k, row))) := by
  refine ⟨?_, ?_, ?_, ?_⟩
  · intro bs
    exact dedupe_pairwise_keys bs []
  · intro bs b hb
    exact dedupe_mem_truthy bs [] b hb
  · intro bs k hk
    exact dedupe_find_first bs [] k hk (by simp)
  · intro bs k
    have h := findByKey_excelFold bs [] k
    rw [excelKeyRows, h]
    cases hlast : lastExcelRow k bs with
    | some row => rfl
    | none => rfl

/-- Witness for dedupe_first_wins_excel_last_wins at the concrete duplicate
    pair: looking up B-100 in the deduped list yields the first record. -/
theorem dedupe_first_wins_witness :
    ("B-100" : String) ≠ "" ∧
    (dedupe_by_booking_number [] [cexB1, cexB2]).find?
        (fun b => b.bookingNumber == some "B-100")
      = [cexB1, cexB2].find? (fun b => b.bookingNumber == some "B-100") :=
  ⟨by decide, dedupe_first_wins_excel_last_wins.2.2.1 [cexB1, cexB2] "B-100" (by decide)⟩

/-- Counterexample to C8 as stated: a record with no totalGross whose totalNet
    carries USD maps to a row with NO currency in the DB mapper
    parse_booking_for_db, while the Excel mapper does fall back to USD. -/
theorem currency_gross_only_counterexample :
    (cexNet.price.getD emptyPrice).totalGross = none ∧
    ((cexNet.price.getD emptyPrice).totalNet.getD emptyMoney).currency = some "USD" ∧
    (parse_booking_for_db cexNet).currency = none ∧
    (_booking_to_row cexNet).currency = "USD" := by
  refine ⟨rfl, rfl, by decide, by decide⟩

/-- C8 amended: the DB mapper parse_booking_for_db takes the currency solely
    from totalGross (none when totalGross is absent, whatever net and paid
    hold); only the Excel row mapper takes the currency of the first
    non-empty sub-object among gross, net, paid. -/
theorem currency_selection :
    (∀ b : Booking, (b.price.getD emptyPrice).totalGross = none →
      (parse_booking_for_db b).currency = none) ∧
    (∀ (b : Booking) (m : Money), (b.price.getD emptyPrice).totalGross = some m →
      (parse_booking_for_db b).currency = m.currency) ∧
    (∀ b : Booking, moneyTruthy (excelGross b) = true →
      (_booking_to_row b).currency = _safe (some ((excelGross b).currency.getD ""))) ∧
    (∀ b : Booking, moneyTruthy (excelGross b) = false → moneyTruthy (excelNet b) = true →
      (_booking_to_row b).currency = _safe (some ((excelNet b).currency.getD ""))) ∧
    (∀ b : Booking, moneyTruthy (excelGross b) = false → moneyTruthy (excelNet b) = false →
      (_booking_to_row b).currency = _safe (some ((excelPaid b).currency.getD ""))) := by
  refine ⟨?_, ?_, ?_, ?_, ?_⟩
  · intro b hg
    simp [parse_booking_for_db, hg, emptyMoney]
  · intro b m hg
    simp [parse_booking_for_db, hg]
  · intro b hg
    simp [_booking_to_row, excelCurrencySource, hg]
  · intro b hg hn
    simp [_booking_to_row, excelCurrencySource, hg, hn]
  · intro b hg hn
    simp [_booking_to_row, excelCurrencySource, hg, hn]

/-- Witness for currency_selection at the concrete record with only a
    totalNet: no currency from the DB mapper, the net currency from Excel. -/
theorem currency_selection_witness :
    ((cexNet.price.getD emptyPrice).totalGross = none ∧
      moneyTruthy (excelGross cexNet) = false ∧ moneyTruthy (excelNet cexNet) = true) ∧
    (parse_booking_for_db cexNet).currency = none ∧
    (_booking_to_row cexNet).currency = _safe (some ((excelNet cexNet).currency.getD "")) :=
  ⟨⟨by decide, by decide, by decide⟩,
   currency_selection.1 cexNet (by decide),
   currency_selection.2.2.2.1 cexNet (by decide) (by decide)⟩

/-- Counterexample to C9 as stated: a 2xx response whose body is malformed
    JSON is returned as a silent empty dict, not surfaced as a BookeoAPIError;
    and a 304 response (not 2xx, but resp.ok) raises nothing either. -/
theorem request_silent_on_malformed_json :
    bookeoRequest cexMalformedOk = Except.ok [] ∧
    cexMalformedOk.jsonData = none ∧
    cexMalformedOk.status_code = 200 ∧
    bookeoRequest cexNotModified = Except.ok [] ∧
    cexNotModified.status_code = 304 := by
  refine ⟨rfl, rfl, rfl, rfl, rfl⟩

/-- C9 amended: the page fetcher raises BookeoAPIError carrying the HTTP
    status code and the parsed payload exactly when resp.ok is false (status
    400 and above); on an ok response it returns the parsed data, and when
    the body of an ok response is malformed JSON it silently returns the
    empty dict. -/
theorem request_error_mapping :
    (∀ r : HttpResponse, respOk r = false →
      ∃ err : BookeoAPIError, bookeoRequest r = Except.error err ∧
        err.status_code = some r.status_code ∧ err.response = respData r) ∧
    (∀ r : HttpResponse, respOk r = true → bookeoRequest r = Except.ok (respData r)) ∧
    (∀ r : HttpResponse, respOk r = true → r.jsonData = none →
      bookeoRequest r = Except.ok []) := by
  refine ⟨?_, ?_, ?_⟩
  · intro r hr
    refine ⟨⟨"Bookeo API error: " ++ requestErrMsg r, some r.status_code, respData r⟩, ?_, rfl, rfl⟩
    simp [bookeoRequest, hr]
  · intro r hr
    simp [bookeoRequest, hr]
  · intro r hr hjson
    simp [bookeoRequest, respData, hr, hjson]

/-- Witness for request_error_mapping at the concrete 404 response. -/
theorem request_error_mapping_witness :
    respOk cexNotFound = false ∧
    (∃ err : BookeoAPIError, bookeoRequest cexNotFound = Except.error err ∧
      err.status_code = some cexNotFound.status_code ∧
      err.response = respData cexNotFound) :=
  ⟨by decide, request_error_mapping.1 cexNotFound (by decide)⟩

/-- C10: the main Azure Function webhook endpoint verifies the signature only
    when the configured secret, the effective webhook URL and the signature
    header are all present: for every POST with a non-empty body where any of
    the three is missing, verification is skipped, a sync job is still
    enqueued and the handler answers 200; and when verification does run and
    reports not-verified, the handler answers 403 without enqueuing. -/
theorem webhook_gating :
    (∀ (hmacHex : String → String → String) (nowMs : Int) (body : List Nat)
        (envSecret : Option String) (envUrl reqUrl tsH midH sigH : String),
      body ≠ [] →
      (truthyS envSecret = false ∨ effectiveUrl envUrl reqUrl = "" ∨ sigH = "") →
      FuncApp.bookeo_webhook hmacHex nowMs body envSecret envUrl reqUrl tsH midH sigH
        = Except.ok ⟨200, true⟩) ∧
    (∀ (hmacHex : String → String → String) (nowMs : Int) (body : List Nat)
        (envSecret : Option String) (envUrl reqUrl tsH midH sigH : String),
      body ≠ [] → truthyS envSecret = true → effectiveUrl envUrl reqUrl ≠ "" → sigH ≠ "" →
      sharedVerify hmacHex nowMs body tsH midH sigH (effectiveUrl envUrl reqUrl)
          (envSecret.getD "") 120 = Except.ok false →
      FuncApp.bookeo_webhook hmacHex nowMs body envSecret envUrl reqUrl tsH midH sigH
        = Except.ok ⟨403, false⟩) := by
  constructor
  · intro hmacHex nowMs body envSecret envUrl reqUrl tsH midH sigH hbody hmiss
    rcases hmiss with h | h | h <;> simp [FuncApp.bookeo_webhook, hbody, h]
  · intro hmacHex nowMs body envSecret envUrl reqUrl tsH midH sigH hbody hs hu hsig hver
    simp [FuncApp.bookeo_webhook, hbody, hs, hu, hsig, hver]

/-- Witness for webhook_gating: a non-empty body with no configured secret is
    accepted with 200 and enqueued without verification, and a configured
    request whose verification reports not-verified is answered with 403. -/
theorem webhook_gating_witness :
    (([65] : List Nat) ≠ [] ∧ truthyS (none : Option String) = false) ∧
    FuncApp.bookeo_webhook (fun _ _ => "") 0 [65] none "" "" "" "" ""
      = Except.ok ⟨200, true⟩ ∧
    (sharedVerify (fun _ _ => "") 0 [65] "" "m" "sig" (effectiveUrl "u" "")
        ((some "sec").getD "") 120 = Except.ok false ∧
      FuncApp.bookeo_webhook (fun _ _ => "") 0 [65] (some "sec") "u" "" "" "m" "sig"
        = Except.ok ⟨403, false⟩) :=
  ⟨⟨by decide, rfl⟩,
   webhook_gating.1 (fun _ _ => "") 0 [65] none "" "" "" "" "" (by decide) (Or.inl rfl),
   rfl,
   webhook_gating.2 (fun _ _ => "") 0 [65] (some "sec") "u" "" "" "m" "sig"
     (by decide) (by decide) (by decide) (by decide) rfl⟩

/-! ## Watermark lemmas -/

theorem wmLe_refl (a : Option Int) : wmLe a a = true := by
  cases a with
  | none => rfl
  | some x => simp [wmLe]

theorem scanl_head {α β : Type} (f : β → α → β) (b : β) (l : List α) :
    (List.scanl f b l).head? = some b := by
  cases l <;> simp [List.scanl]

/-- C3 (modelled from the spec, see SyncPass): the stored watermark is left
    unchanged by an aborted pass, is advanced exactly by a fully successful
    pass and then to the now captured at that pass's start, and across any
    run of passes whose start clocks are non-decreasing and not before the
    initial watermark, the sequence of stored watermark values never
    decreases. -/
theorem watermark_monotone :
    (∀ (wm : Option Int) (p : SyncPass), passFullySucceeded p = false →
      applyPass wm p = wm) ∧
    (∀ (wm : Option Int) (p : SyncPass), passFullySucceeded p = true →
      applyPass wm p = some p.nowAtStart) ∧
    (∀ (wm : Option Int) (ps : List SyncPass),
      List.Pairwise (fun a b : SyncPass => a.nowAtStart ≤ b.nowAtStart) ps →
      (∀ p ∈ ps, wmLe wm (some p.nowAtStart) = true) →
      List.Chain' (fun a b : Option Int => wmLe a b = true)
        (List.scanl applyPass wm ps)) := by
  refine ⟨?_, ?_, ?_⟩
  · intro wm p hp
    simp [applyPass, hp]
  · intro wm p hp
    simp [applyPass, hp]
  · intro wm ps
    induction ps generalizing wm with
    | nil =>
      intro _ _
      simp [List.scanl]
    | cons p ps ih =>
      intro hpair hwm
      rw [List.scanl_cons]
      refine List.chain'_cons'.mpr ⟨?_, ?_⟩
      · intro y hy
        have hyy : y = applyPass wm p := by
          cases ps <;> exact (by simpa [List.scanl] using hy : applyPass wm p = y).symm
        subst hyy
        by_cases hp : passFullySucceeded p
        · simp only [applyPass, if_pos hp]
          exact hwm p (List.mem_cons_self p ps)
        · simp only [applyPass, if_neg hp]
          exact wmLe_refl wm
      · refine ih (applyPass wm p) (List.pairwise_cons.mp hpair).2 ?_
        intro q hq
        by_cases hp : passFullySucceeded p
        · simp only [applyPass, if_pos hp]
          have hle : p.nowAtStart ≤ q.nowAtStart := (List.pairwise_cons.mp hpair).1 q hq
          simp [wmLe, hle]
        · simp only [applyPass, if_neg hp]
          exact hwm q (List.mem_cons_of_mem p hq)

/-- Witness for watermark_monotone: two fully successful passes at clocks 100
    then 200 starting from an absent watermark. -/
theorem watermark_monotone_witness :
    (List.Pairwise (fun a b : SyncPass => a.nowAtStart ≤ b.nowAtStart)
        [cexPass1, cexPass2] ∧
      (∀ p ∈ [cexPass1, cexPass2], wmLe none (some p.nowAtStart) = true)) ∧
    List.Chain' (fun a b : Option Int => wmLe a b = true)
      (List.scanl applyPass none [cexPass1, cexPass2]) :=
  ⟨⟨by decide, by decide⟩,
   watermark_monotone.2.2 none [cexPass1, cexPass2] (by decide) (by decide)⟩
